import Mathlib

/-!
Shallow embedding of the Archon model-adapter layer
(src/archon/models/gemini.py and src/archon/models/ollama.py).

The tokenizer (tiktoken, external to the repository) is modelled as a
parameter `tok : String → Nat` (len of tokenizer.encode).  Backend calls
and transport are modelled by their outcome: `Except.error msg` when the
call raises an exception with message `msg`, `Except.ok ...` otherwise.
Async streams are modelled as pure functions from the sequence of native
events to the list of yielded chunks.
-/

namespace Archon

/-- Terminal status of a generation result: "stop" or "error"; results still
in progress carry `none` (Python None) instead. -/
inductive FinishReason where
  | stop
  | error
deriving DecidableEq, Repr

/-- The usage dictionary built on success paths: the three token counters plus
the backend-specific metric entries (Ollama adds eval_count, eval_duration and
total_duration; Gemini adds nothing, `extras = []`). -/
structure Usage where
  prompt_tokens : Nat
  completion_tokens : Nat
  total_tokens : Nat
  extras : List (String × Nat)
deriving DecidableEq, Repr

/-- The result/chunk dictionary both adapters return or yield: exactly the four
keys text, model, finish_reason, usage.  `usage = none` models the empty dict
used on every error path. -/
structure GenerationResult where
  text : String
  model : String
  finish_reason : Option FinishReason
  usage : Option Usage
deriving DecidableEq, Repr

/-- prompt_tokens as both adapters compute it: tokenizer length of the user
prompt, plus that of the system prompt when one is given
(gemini.py 94-97, ollama.py 122-125). -/
def promptTokens (tok : String → Nat) (system_prompt : Option String) (prompt : String) : Nat :=
  tok prompt + (match system_prompt with
    | some s => tok s
    | none => 0)

/-- The message text both adapters embed in every except-branch result
(gemini.py 117 and 221, ollama.py 148 and 292). -/
def errorText (msg : String) : String :=
  "Error generating content: " ++ msg

/-- GeminiModel.generate with stream=False (gemini.py 34-121).  The backend
call -- generate_content_async together with the response.text access -- is
modelled by its outcome: `.ok response_text`, or `.error msg` when any
exception is raised. -/
def GeminiModel.generate (tok : String → Nat) (model_name : String)
    (prompt : String) (system_prompt : Option String)
    (backend : Except String String) : GenerationResult :=
  match backend with
  | .error e =>
      { text := errorText e, model := model_name, finish_reason := some .error, usage := none }
  | .ok response_text =>
      let pt := promptTokens tok system_prompt prompt
      let ct := tok response_text
      { text := response_text, model := model_name, finish_reason := some .stop,
        usage := some { prompt_tokens := pt, completion_tokens := ct,
                        total_tokens := pt + ct, extras := [] } }

/-- Parsed view of a successful Ollama /api/chat non-streaming response body:
message.content (default "") and the three metric fields (default 0), i.e. the
values extracted by ollama.py 120 and 139-141. -/
structure OllamaResponse where
  content : String
  eval_count : Nat
  eval_duration : Nat
  total_duration : Nat
deriving DecidableEq, Repr

/-- OllamaModel.generate with stream=False (ollama.py 36-152).  The POST,
raise_for_status and JSON parse are modelled by their outcome: `.ok r` with the
extracted fields, or `.error msg` when any exception is raised. -/
def OllamaModel.generate (tok : String → Nat) (model_name : String)
    (prompt : String) (system_prompt : Option String)
    (backend : Except String OllamaResponse) : GenerationResult :=
  match backend with
  | .error e =>
      { text := errorText e, model := model_name, finish_reason := some .error, usage := none }
  | .ok r =>
      let pt := promptTokens tok system_prompt prompt
      let ct := tok r.content
      { text := r.content, model := model_name, finish_reason := some .stop,
        usage := some { prompt_tokens := pt, completion_tokens := ct,
                        total_tokens := pt + ct,
                        extras := [("eval_count", r.eval_count),
                                   ("eval_duration", r.eval_duration),
                                   ("total_duration", r.total_duration)] } }

/-- The options object of the Ollama request payload (ollama.py 84-97 and
190-203).  `none` in num_predict / stop means the key is absent from the dict
(omitted, never null). -/
structure OllamaOptions where
  temperature : Rat
  top_p : Rat
  top_k : Nat
  num_predict : Option Nat
  stop : Option (List String)
deriving DecidableEq, Repr

/-- The JSON payload OllamaModel sends to /api/chat; messages are (role,
content) pairs. -/
structure OllamaPayload where
  model : String
  messages : List (String × String)
  stream : Bool
  options : OllamaOptions
deriving DecidableEq, Repr

/-- The messages array both code paths build (ollama.py 70-77 and 175-183):
an optional system turn followed by the user turn. -/
def buildMessages (system_prompt : Option String) (prompt : String) : List (String × String) :=
  (match system_prompt with
    | some s => [("system", s)]
    | none => []) ++ [("user", prompt)]

/-- Payload construction of ollama.py 80-97 (identical in 186-203 up to the
stream flag).  kwargs.get("top_p", 0.95) / kwargs.get("top_k", 40) are the
`Option.getD` defaults; `if max_tokens:` and `if stop_sequences:` follow
Python truthiness, so Some 0 and Some [] are omitted as well. -/
def OllamaModel.buildPayload (model_name : String) (prompt : String)
    (system_prompt : Option String) (temperature : Rat)
    (max_tokens : Option Nat) (stop_sequences : Option (List String))
    (stream : Bool) (top_p : Option Rat) (top_k : Option Nat) : OllamaPayload :=
  { model := model_name,
    messages := buildMessages system_prompt prompt,
    stream := stream,
    options :=
      { temperature := temperature,
        top_p := top_p.getD (0.95 : Rat),
        top_k := top_k.getD 40,
        num_predict := match max_tokens with
          | some n => if n ≠ 0 then some n else none
          | none => none,
        stop := match stop_sequences with
          | some l => if l ≠ [] then some l else none
          | none => none } }

/-- The genai GenerationConfig GeminiModel builds (gemini.py 68-74, identical
in 145-151): the same truthiness conversions and top_p / top_k defaults. -/
structure GenerationConfig where
  temperature : Rat
  max_output_tokens : Option Nat
  stop_sequences : Option (List String)
  top_p : Rat
  top_k : Nat
deriving DecidableEq, Repr

/-- Config construction of gemini.py 68-74. -/
def GeminiModel.buildConfig (temperature : Rat) (max_tokens : Option Nat)
    (stop_sequences : Option (List String))
    (top_p : Option Rat) (top_k : Option Nat) : GenerationConfig :=
  { temperature := temperature,
    max_output_tokens := match max_tokens with
      | some n => if n ≠ 0 then some n else none
      | none => none,
    stop_sequences := match stop_sequences with
      | some l => if l ≠ [] then some l else none
      | none => none,
    top_p := top_p.getD (0.95 : Rat),
    top_k := top_k.getD 40 }

/-- One native chunk event of the Gemini streaming response (gemini.py
179-204): `.ok t` when the chunk carries text `t` (with `t = ""` for a chunk
that has no text attribute or empty text, which is skipped), `.error msg` when
touching the chunk raises an exception caught at gemini.py 197. -/
abbrev GeminiChunkEvent := Except String String

instance : DecidableEq GeminiChunkEvent := fun a b =>
  match a, b with
  | .ok x, .ok y =>
      if h : x = y then .isTrue (by rw [h]) else .isFalse (by simp [h])
  | .ok _, .error _ => .isFalse (by simp)
  | .error _, .ok _ => .isFalse (by simp)
  | .error x, .error y =>
      if h : x = y then .isTrue (by rw [h]) else .isFalse (by simp [h])

/-- Outcome of one Gemini streaming call: either starting the stream raises
(`startFail`, caught by the outer except at gemini.py 218), or the native
iterator delivers `chunks` and then -- when `tail = some msg` -- raises `msg`
out of the async-for, which the outer except also catches. -/
inductive GeminiStreamInput where
  | startFail (msg : String)
  | stream (chunks : List GeminiChunkEvent) (tail : Option String)
deriving DecidableEq, Repr

/-- The chunk-consuming loop of gemini.py 179-204, returning the yielded
chunks and the final accumulated_text.  A raising chunk yields an error chunk
with empty text and empty usage, and the loop continues: there is no break in
the except branch at gemini.py 197-204. -/
def geminiLoop (tok : String → Nat) (model_name : String) (pt : Nat) :
    List GeminiChunkEvent → String → List GenerationResult × String
  | [], acc => ([], acc)
  | .ok t :: rest, acc =>
      if t ≠ "" then
        let acc' := acc ++ t
        let r := geminiLoop tok model_name pt rest acc'
        ({ text := t, model := model_name, finish_reason := none,
           usage := some { prompt_tokens := pt, completion_tokens := tok acc',
                           total_tokens := pt + tok acc', extras := [] } } :: r.1, r.2)
      else
        geminiLoop tok model_name pt rest acc
  | .error _ :: rest, acc =>
      let r := geminiLoop tok model_name pt rest acc
      ({ text := "", model := model_name, finish_reason := some .error,
         usage := none } :: r.1, r.2)

/-- GeminiModel._generate_stream (gemini.py 123-225), as the list of yielded
chunks.  After the loop the terminal stop chunk is yielded (gemini.py
207-216) unless the iteration itself raised, in which case the outer except
yields the error chunk of gemini.py 220-224. -/
def GeminiModel.generate_stream (tok : String → Nat) (model_name : String)
    (prompt : String) (system_prompt : Option String)
    (input : GeminiStreamInput) : List GenerationResult :=
  match input with
  | .startFail e =>
      [{ text := errorText e, model := model_name, finish_reason := some .error, usage := none }]
  | .stream chunks tail =>
      let pt := promptTokens tok system_prompt prompt
      let r := geminiLoop tok model_name pt chunks ""
      match tail with
      | some e =>
          r.1 ++ [{ text := errorText e, model := model_name,
                    finish_reason := some .error, usage := none }]
      | none =>
          r.1 ++ [{ text := "", model := model_name, finish_reason := some .stop,
                    usage := some { prompt_tokens := pt, completion_tokens := tok r.2,
                                    total_tokens := pt + tok r.2, extras := [] } }]

/-- One line event of the Ollama streaming response (ollama.py 230-287):
`.empty` is an empty line (skipped before parsing, 231-232); `.malformed`
fails json.loads (skipped, 276-278); `.obj content done ec ed td` is a parsed
object with its extracted fields; `.procErr msg` is a line whose processing
raises any other exception (279-287). -/
inductive LineEvent where
  | empty
  | malformed
  | obj (content : String) (done : Bool) (eval_count eval_duration total_duration : Nat)
  | procErr (msg : String)
deriving DecidableEq, Repr

/-- Outcome of one Ollama streaming call: either establishing the connection
or raise_for_status fails (`startFail`, caught at ollama.py 289), or the line
iterator delivers `ls` and then -- when `tail = some msg` -- raises out of the
async-for, which the outer except catches. -/
inductive OllamaStreamInput where
  | startFail (msg : String)
  | lines (ls : List LineEvent) (tail : Option String)
deriving DecidableEq, Repr

/-- The line-consuming loop of ollama.py 230-287, returning the yielded chunks
and whether the loop exited through a break (done line at 274 or
per-line exception at 287).  A done line first yields the incremental chunk
when its content is non-empty, then the terminal stop chunk carrying the
backend metrics, then breaks. -/
def ollamaLoop (tok : String → Nat) (model_name : String) (pt : Nat) :
    List LineEvent → String → List GenerationResult × Bool
  | [], _ => ([], false)
  | .empty :: rest, acc => ollamaLoop tok model_name pt rest acc
  | .malformed :: rest, acc => ollamaLoop tok model_name pt rest acc
  | .obj content done ec ed td :: rest, acc =>
      let acc' := if content ≠ "" then acc ++ content else acc
      let emitted : List GenerationResult :=
        if content ≠ "" then
          [{ text := content, model := model_name, finish_reason := none,
             usage := some { prompt_tokens := pt, completion_tokens := tok acc',
                             total_tokens := pt + tok acc', extras := [] } }]
        else []
      if done then
        (emitted ++
          [{ text := "", model := model_name, finish_reason := some .stop,
             usage := some { prompt_tokens := pt, completion_tokens := tok acc',
                             total_tokens := pt + tok acc',
                             extras := [("eval_count", ec), ("eval_duration", ed),
                                        ("total_duration", td)] } }], true)
      else
        let r := ollamaLoop tok model_name pt rest acc'
        (emitted ++ r.1, r.2)
  | .procErr _ :: _, _ =>
      ([{ text := "", model := model_name, finish_reason := some .error, usage := none }], true)

/-- OllamaModel._generate_stream (ollama.py 154-296), as the list of yielded
chunks.  If the loop ran off the end of the lines without a break, nothing
more is yielded unless the iteration itself raised, in which case the outer
except yields the error chunk of ollama.py 291-296. -/
def OllamaModel.generate_stream (tok : String → Nat) (model_name : String)
    (prompt : String) (system_prompt : Option String)
    (input : OllamaStreamInput) : List GenerationResult :=
  match input with
  | .startFail e =>
      [{ text := errorText e, model := model_name, finish_reason := some .error, usage := none }]
  | .lines ls tail =>
      let pt := promptTokens tok system_prompt prompt
      let r := ollamaLoop tok model_name pt ls ""
      if r.2 then r.1
      else match tail with
        | some e =>
            r.1 ++ [{ text := errorText e, model := model_name,
                      finish_reason := some .error, usage := none }]
        | none => r.1

/-- Spec-side view: the completion_tokens values of the chunks that carry a
usage record, in emission order. -/
def cts (l : List GenerationResult) : List Nat :=
  l.filterMap (fun r => r.usage.map Usage.completion_tokens)

/-- Spec-side view: the concatenation of the text fields of the non-terminal
(finish_reason = none) chunks of a stream, in order. -/
def nonTerminalText : List GenerationResult → String
  | [] => ""
  | r :: rs => (if r.finish_reason = none then r.text else "") ++ nonTerminalText rs

/-- Concatenation of a list of backend-delivered text fragments. -/
def concatAll : List String → String
  | [] => ""
  | s :: ss => s ++ concatAll ss

/-- True when no native chunk of a Gemini stream raises while being processed
(every chunk event is `.ok`). -/
def GeminiStreamInput.noChunkErr : GeminiStreamInput → Bool
  | .startFail _ => true
  | .stream chunks _ => chunks.all (fun c => match c with | .ok _ => true | .error _ => false)

lemma cts_append (l l' : List GenerationResult) : cts (l ++ l') = cts l ++ cts l' :=
  List.filterMap_append l l' _

lemma nonTerminalText_append (l l' : List GenerationResult) :
    nonTerminalText (l ++ l') = nonTerminalText l ++ nonTerminalText l' := by
  induction l with
  | nil => simp [nonTerminalText, String.empty_append]
  | cons r rs ih => simp [nonTerminalText, ih, String.append_assoc]

lemma concatAll_append (l l' : List String) :
    concatAll (l ++ l') = concatAll l ++ concatAll l' := by
  induction l with
  | nil => simp [concatAll, String.empty_append]
  | cons s ss ih => simp [concatAll, ih, String.append_assoc]

lemma geminiLoop_model (tok : String → Nat) (m : String) (pt : Nat) :
    ∀ (chunks : List GeminiChunkEvent) (acc : String),
      ∀ r ∈ (geminiLoop tok m pt chunks acc).1, r.model = m := by
  intro chunks
  induction chunks with
  | nil =>
      intro acc r hr
      simp [geminiLoop] at hr
  | cons c rest ih =>
      intro acc r hr
      cases c with
      | ok t =>
          by_cases h : t = ""
          · simp only [geminiLoop, h, ne_eq, not_true_eq_false, if_false] at hr
            exact ih _ r hr
          · simp only [geminiLoop, h, ne_eq, not_false_eq_true, if_true,
              List.mem_cons] at hr
            rcases hr with h1 | h1
            · rw [h1]
            · exact ih _ r h1
      | error e =>
          simp only [geminiLoop, List.mem_cons] at hr
          rcases hr with h1 | h1
          · rw [h1]
          · exact ih _ r h1

lemma ollamaLoop_model (tok : String → Nat) (m : String) (pt : Nat) :
    ∀ (ls : List LineEvent) (acc : String),
      ∀ r ∈ (ollamaLoop tok m pt ls acc).1, r.model = m := by
  intro ls
  induction ls with
  | nil =>
      intro acc r hr
      simp [ollamaLoop] at hr
  | cons l rest ih =>
      intro acc r hr
      cases l with
      | empty => exact ih _ r hr
      | malformed => exact ih _ r hr
      | obj content done ec ed td =>
          by_cases hd : done
          · subst hd
            by_cases hc : content = ""
            · simp only [ollamaLoop, hc, ne_eq, not_true_eq_false, if_false, if_true,
                List.nil_append, List.mem_singleton] at hr
              rw [hr]
            · simp only [ollamaLoop, hc, ne_eq, not_false_eq_true, if_true,
                List.cons_append, List.nil_append, List.mem_cons, List.not_mem_nil,
                or_false] at hr
              rcases hr with h1 | h1
              · rw [h1]
              · rw [h1]
          · have hd' : done = false := by
              cases done
              · rfl
              · exact absurd rfl hd
            subst hd'
            by_cases hc : content = ""
            · simp only [ollamaLoop, hc, ne_eq, not_true_eq_false, if_false,
                Bool.false_eq_true, List.nil_append] at hr
              exact ih _ r hr
            · simp only [ollamaLoop, hc, ne_eq, not_false_eq_true, if_true,
                Bool.false_eq_true, if_false, List.cons_append, List.nil_append,
                List.mem_cons] at hr
              rcases hr with h1 | h1
              · rw [h1]
              · exact ih _ r h1
      | procErr e =>
          simp only [ollamaLoop, List.mem_singleton] at hr
          rw [hr]

lemma geminiLoop_ok_spec (tok : String → Nat) (m : String) (pt : Nat) :
    ∀ (ts : List String) (acc : String),
      (geminiLoop tok m pt (ts.map Except.ok) acc).2 = acc ++ concatAll ts ∧
      nonTerminalText (geminiLoop tok m pt (ts.map Except.ok) acc).1 = concatAll ts ∧
      ∀ r ∈ (geminiLoop tok m pt (ts.map Except.ok) acc).1, r.finish_reason = none := by
  intro ts
  induction ts with
  | nil =>
      intro acc
      refine ⟨?_, ?_, ?_⟩
      · simp [geminiLoop, concatAll, String.append_empty]
      · simp [geminiLoop, nonTerminalText, concatAll]
      · intro r hr
        simp [geminiLoop] at hr
  | cons t ts ih =>
      intro acc
      by_cases h : t = ""
      · subst h
        refine ⟨?_, ?_, ?_⟩
        · simp only [List.map_cons, geminiLoop, ne_eq, not_true_eq_false, if_false]
          rw [(ih acc).1, concatAll, String.empty_append]
        · simp only [List.map_cons, geminiLoop, ne_eq, not_true_eq_false, if_false]
          rw [(ih acc).2.1, concatAll, String.empty_append]
        · intro r hr
          simp only [List.map_cons, geminiLoop, ne_eq, not_true_eq_false, if_false] at hr
          exact (ih acc).2.2 r hr
      · refine ⟨?_, ?_, ?_⟩
        · simp only [List.map_cons, geminiLoop, h, ne_eq, not_false_eq_true, if_true]
          rw [(ih (acc ++ t)).1, concatAll, String.append_assoc]
        · simp only [List.map_cons, geminiLoop, h, ne_eq, not_false_eq_true, if_true,
            nonTerminalText, if_pos rfl]
          rw [(ih (acc ++ t)).2.1, concatAll]
        · intro r hr
          simp only [List.map_cons, geminiLoop, h, ne_eq, not_false_eq_true, if_true,
            List.mem_cons] at hr
          rcases hr with h1 | h1
          · rw [h1]
          · exact (ih (acc ++ t)).2.2 r h1

lemma all_ok_eq_map (chunks : List GeminiChunkEvent)
    (h : chunks.all (fun c => match c with | .ok _ => true | .error _ => false) = true) :
    ∃ ts : List String, chunks = ts.map Except.ok := by
  induction chunks with
  | nil => exact ⟨[], rfl⟩
  | cons c rest ih =>
      simp only [List.all_cons, Bool.and_eq_true] at h
      obtain ⟨h1, h2⟩ := h
      obtain ⟨ts, hts⟩ := ih h2
      cases c with
      | ok t => exact ⟨t :: ts, by rw [hts]; rfl⟩
      | error e => simp at h1

lemma ollamaLoop_break (tok : String → Nat) (m : String) (pt : Nat) :
    ∀ (ls : List LineEvent) (acc : String),
      ((ollamaLoop tok m pt ls acc).2 = false →
        ∀ r ∈ (ollamaLoop tok m pt ls acc).1, r.finish_reason = none) ∧
      ((ollamaLoop tok m pt ls acc).2 = true →
        ∃ pre last, (ollamaLoop tok m pt ls acc).1 = pre ++ [last] ∧
          (∀ r ∈ pre, r.finish_reason = none) ∧ last.finish_reason.isSome = true) := by
  intro ls
  induction ls with
  | nil =>
      intro acc
      refine ⟨?_, ?_⟩
      · intro _ r hr
        simp [ollamaLoop] at hr
      · intro hb
        simp [ollamaLoop] at hb
  | cons l rest ih =>
      intro acc
      cases l with
      | empty => exact ih acc
      | malformed => exact ih acc
      | obj content done ec ed td =>
          cases done with
          | true =>
              refine ⟨?_, ?_⟩
              · intro hb
                by_cases hc : content = "" <;>
                  simp [ollamaLoop, hc] at hb
              · intro _
                by_cases hc : content = ""
                · refine ⟨[],
                    { text := "", model := m, finish_reason := some .stop,
                      usage := some { prompt_tokens := pt, completion_tokens := tok acc,
                                      total_tokens := pt + tok acc,
                                      extras := [("eval_count", ec), ("eval_duration", ed),
                                                 ("total_duration", td)] } }, ?_, ?_, ?_⟩
                  · simp [ollamaLoop, hc]
                  · intro r hr
                    simp at hr
                  · rfl
                · refine ⟨[
                    { text := content, model := m, finish_reason := none,
                      usage := some { prompt_tokens := pt,
                                      completion_tokens := tok (acc ++ content),
                                      total_tokens := pt + tok (acc ++ content),
                                      extras := [] } }],
                    { text := "", model := m, finish_reason := some .stop,
                      usage := some { prompt_tokens := pt,
                                      completion_tokens := tok (acc ++ content),
                                      total_tokens := pt + tok (acc ++ content),
                                      extras := [("eval_count", ec), ("eval_duration", ed),
                                                 ("total_duration", td)] } }, ?_, ?_, ?_⟩
                  · simp [ollamaLoop, hc]
                  · intro r hr
                    simp only [List.mem_singleton] at hr
                    rw [hr]
                  · rfl
          | false =>
              by_cases hc : content = ""
              · refine ⟨?_, ?_⟩
                · intro hb r hr
                  simp only [ollamaLoop, hc, ne_eq, not_true_eq_false, if_false,
                    Bool.false_eq_true, List.nil_append] at hb hr
                  exact (ih _).1 hb r hr
                · intro hb
                  simp only [ollamaLoop, hc, ne_eq, not_true_eq_false, if_false,
                    Bool.false_eq_true, List.nil_append] at hb ⊢
                  exact (ih _).2 hb
              · refine ⟨?_, ?_⟩
                · intro hb r hr
                  simp only [ollamaLoop, hc, ne_eq, not_false_eq_true, if_true,
                    Bool.false_eq_true, if_false, List.cons_append, List.nil_append,
                    List.mem_cons] at hb hr
                  rcases hr with h1 | h1
                  · rw [h1]
                  · exact (ih _).1 hb r h1
                · intro hb
                  simp only [ollamaLoop, hc, ne_eq, not_false_eq_true, if_true,
                    Bool.false_eq_true, if_false, List.cons_append, List.nil_append] at hb ⊢
                  obtain ⟨pre, last, heq, hpre, hlast⟩ := (ih _).2 hb
                  refine ⟨
                    { text := content, model := m, finish_reason := none,
                      usage := some { prompt_tokens := pt,
                                      completion_tokens := tok (acc ++ content),
                                      total_tokens := pt + tok (acc ++ content),
                                      extras := [] } } :: pre, last, ?_, ?_, hlast⟩
                  · rw [heq]
                    rfl
                  · intro r hr
                    rcases List.mem_cons.mp hr with h1 | h1
                    · rw [h1]
                    · exact hpre r h1
      | procErr e =>
          refine ⟨?_, ?_⟩
          · intro hb
            simp [ollamaLoop] at hb
          · intro _
            exact ⟨[], { text := "", model := m, finish_reason := some .error, usage := none },
              rfl, by intro r hr; simp at hr, rfl⟩

lemma ollamaLoop_concat (tok : String → Nat) (m : String) (pt : Nat)
    (tl : String) (ec ed td : Nat) :
    ∀ (ts : List String) (acc : String),
      nonTerminalText (ollamaLoop tok m pt
        ((ts.map fun t => LineEvent.obj t false 0 0 0) ++ [LineEvent.obj tl true ec ed td])
        acc).1 = concatAll ts ++ tl := by
  intro ts
  induction ts with
  | nil =>
      intro acc
      by_cases hc : tl = ""
      · simp [ollamaLoop, hc, nonTerminalText, concatAll, String.empty_append,
          String.append_empty]
      · simp [ollamaLoop, hc, nonTerminalText, concatAll, String.empty_append,
          String.append_empty]
  | cons t ts ih =>
      intro acc
      by_cases hc : t = ""
      · simp only [List.map_cons, List.cons_append, ollamaLoop, hc, ne_eq,
          not_true_eq_false, if_false, Bool.false_eq_true, List.nil_append,
          List.append_eq]
        rw [ih acc, concatAll, String.empty_append]
      · simp only [List.map_cons, List.cons_append, ollamaLoop, hc, ne_eq,
          not_false_eq_true, if_true, Bool.false_eq_true, if_false, List.cons_append,
          List.nil_append, nonTerminalText, if_pos rfl, List.append_eq]
        rw [ih (acc ++ t), concatAll, String.append_assoc]

lemma geminiLoop_chain (tok : String → Nat) (hmono : ∀ a b, tok a ≤ tok (a ++ b))
    (m : String) (pt : Nat) :
    ∀ (chunks : List GeminiChunkEvent) (acc : String),
      List.Chain (· ≤ ·) (tok acc)
        (cts (geminiLoop tok m pt chunks acc).1 ++ [tok (geminiLoop tok m pt chunks acc).2]) := by
  intro chunks
  induction chunks with
  | nil =>
      intro acc
      simp only [geminiLoop, cts, List.filterMap_nil, List.nil_append]
      exact List.Chain.cons (le_refl _) List.Chain.nil
  | cons c rest ih =>
      intro acc
      cases c with
      | ok t =>
          by_cases h : t = ""
          · simp only [geminiLoop, h, ne_eq, not_true_eq_false, if_false]
            exact ih acc
          · simp only [geminiLoop, h, ne_eq, not_false_eq_true, if_true, cts,
              List.filterMap_cons, Option.map_some, List.cons_append]
            exact List.Chain.cons (hmono acc t) (ih (acc ++ t))
      | error e =>
          simp only [geminiLoop, cts, List.filterMap_cons]
          exact ih acc

lemma ollamaLoop_chain (tok : String → Nat) (hmono : ∀ a b, tok a ≤ tok (a ++ b))
    (m : String) (pt : Nat) :
    ∀ (ls : List LineEvent) (acc : String),
      List.Chain (· ≤ ·) (tok acc) (cts (ollamaLoop tok m pt ls acc).1) := by
  intro ls
  induction ls with
  | nil =>
      intro acc
      simp only [ollamaLoop, cts, List.filterMap_nil]
      exact List.Chain.nil
  | cons l rest ih =>
      intro acc
      cases l with
      | empty => exact ih acc
      | malformed => exact ih acc
      | obj content done ec ed td =>
          cases done with
          | true =>
              by_cases hc : content = ""
              · simp only [ollamaLoop, hc, ne_eq, not_true_eq_false, if_false, if_true,
                  List.nil_append, cts, List.filterMap_cons, Option.map_some,
                  List.filterMap_nil]
                exact List.Chain.cons (le_refl _) List.Chain.nil
              · simp only [ollamaLoop, hc, ne_eq, not_false_eq_true, if_true,
                  List.cons_append, List.nil_append, cts, List.filterMap_cons,
                  Option.map_some, List.filterMap_nil]
                exact List.Chain.cons (hmono acc content)
                  (List.Chain.cons (le_refl _) List.Chain.nil)
          | false =>
              by_cases hc : content = ""
              · simp only [ollamaLoop, hc, ne_eq, not_true_eq_false, if_false,
                  Bool.false_eq_true, List.nil_append]
                exact ih acc
              · simp only [ollamaLoop, hc, ne_eq, not_false_eq_true, if_true,
                  Bool.false_eq_true, if_false, List.cons_append, List.nil_append, cts,
                  List.filterMap_cons, Option.map_some]
                exact List.Chain.cons (hmono acc content) (ih (acc ++ content))
      | procErr e =>
          simp only [ollamaLoop, cts, List.filterMap_cons, Option.map_some,
            List.filterMap_nil]
          exact List.Chain.nil

lemma ollama_stream_broke (tok : String → Nat) (m p : String) (sp : Option String)
    (ls : List LineEvent) (tail : Option String)
    (hb : (ollamaLoop tok m (promptTokens tok sp p) ls "").2 = true) :
    OllamaModel.generate_stream tok m p sp (.lines ls tail) =
      (ollamaLoop tok m (promptTokens tok sp p) ls "").1 := by
  simp [OllamaModel.generate_stream, hb]

lemma ollama_stream_nobreak_none (tok : String → Nat) (m p : String) (sp : Option String)
    (ls : List LineEvent)
    (hb : (ollamaLoop tok m (promptTokens tok sp p) ls "").2 = false) :
    OllamaModel.generate_stream tok m p sp (.lines ls none) =
      (ollamaLoop tok m (promptTokens tok sp p) ls "").1 := by
  simp [OllamaModel.generate_stream, hb]

lemma ollama_stream_nobreak_some (tok : String → Nat) (m p e : String) (sp : Option String)
    (ls : List LineEvent)
    (hb : (ollamaLoop tok m (promptTokens tok sp p) ls "").2 = false) :
    OllamaModel.generate_stream tok m p sp (.lines ls (some e)) =
      (ollamaLoop tok m (promptTokens tok sp p) ls "").1 ++
      [{ text := errorText e, model := m, finish_reason := some .error, usage := none }] := by
  simp [OllamaModel.generate_stream, hb]

lemma gemini_stream_none (tok : String → Nat) (m p : String) (sp : Option String)
    (chunks : List GeminiChunkEvent) :
    GeminiModel.generate_stream tok m p sp (.stream chunks none) =
      (geminiLoop tok m (promptTokens tok sp p) chunks "").1 ++
      [{ text := "", model := m, finish_reason := some .stop,
         usage := some { prompt_tokens := promptTokens tok sp p,
                         completion_tokens :=
                           tok (geminiLoop tok m (promptTokens tok sp p) chunks "").2,
                         total_tokens := promptTokens tok sp p +
                           tok (geminiLoop tok m (promptTokens tok sp p) chunks "").2,
                         extras := [] } }] :=
  rfl

lemma gemini_stream_some (tok : String → Nat) (m p e : String) (sp : Option String)
    (chunks : List GeminiChunkEvent) :
    GeminiModel.generate_stream tok m p sp (.stream chunks (some e)) =
      (geminiLoop tok m (promptTokens tok sp p) chunks "").1 ++
      [{ text := errorText e, model := m, finish_reason := some .error, usage := none }] :=
  rfl

/-- C1: for every non-streaming generate call on either adapter in which the
backend call or transport raises an exception (message `e`), the call returns
normally with finish_reason "error", an empty usage record, and a text field
embedding the exception's message. -/
theorem c1_error_as_value (tok : String → Nat) (m p e : String) (sp : Option String) :
    GeminiModel.generate tok m p sp (.error e) =
      { text := "Error generating content: " ++ e, model := m,
        finish_reason := some .error, usage := none } ∧
    OllamaModel.generate tok m p sp (.error e) =
      { text := "Error generating content: " ++ e, model := m,
        finish_reason := some .error, usage := none } :=
  ⟨rfl, rfl⟩

/-- C5: for every successful non-streaming call on either adapter, the usage
record satisfies total_tokens = prompt_tokens + completion_tokens exactly,
with prompt_tokens the token estimate of system prompt plus user prompt and
completion_tokens that of the response text (all Nat, hence non-negative). -/
theorem c5_usage_invariant (tok : String → Nat) (m p response_text : String)
    (sp : Option String) (r : OllamaResponse) :
    (GeminiModel.generate tok m p sp (.ok response_text)).usage =
      some { prompt_tokens := promptTokens tok sp p,
             completion_tokens := tok response_text,
             total_tokens := promptTokens tok sp p + tok response_text,
             extras := [] } ∧
    (OllamaModel.generate tok m p sp (.ok r)).usage =
      some { prompt_tokens := promptTokens tok sp p,
             completion_tokens := tok r.content,
             total_tokens := promptTokens tok sp p + tok r.content,
             extras := [("eval_count", r.eval_count), ("eval_duration", r.eval_duration),
                        ("total_duration", r.total_duration)] } :=
  ⟨rfl, rfl⟩

/-- C2 counterexample: in the Gemini adapter a chunk-processing failure yields
an error chunk but the loop continues (no break at gemini.py 197-204), so the
stream still ends with a terminal "stop" chunk: two terminal chunks, and a
chunk follows the error chunk, refuting the claim as stated. -/
theorem c2_counterexample :
    (GeminiModel.generate_stream String.length "m" "p" none
        (.stream [.error "boom"] none)).map GenerationResult.finish_reason =
      [some .error, some .stop] :=
  rfl

/-- C2 amended: in every Ollama stream at most one terminal chunk is emitted
and every chunk before the last one is non-terminal (so nothing follows a
terminal chunk and the stream ends immediately after an error chunk); in a
Gemini stream the same holds provided no chunk-processing failure occurs, and
then exactly one terminal chunk is emitted, as the last element.  (Gemini
chunk-processing failures emit non-final error chunks followed by more
chunks.) -/
theorem c2_amended_terminal (tok : String → Nat) (m p : String) (sp : Option String)
    (oi : OllamaStreamInput) (gi : GeminiStreamInput) (h : gi.noChunkErr = true) :
    (OllamaModel.generate_stream tok m p sp oi).countP
        (fun r => r.finish_reason.isSome) ≤ 1 ∧
    (OllamaModel.generate_stream tok m p sp oi).dropLast.all
        (fun r => r.finish_reason.isNone) = true ∧
    (GeminiModel.generate_stream tok m p sp gi).countP
        (fun r => r.finish_reason.isSome) = 1 ∧
    (GeminiModel.generate_stream tok m p sp gi).dropLast.all
        (fun r => r.finish_reason.isNone) = true := by
  have hollama :
      (OllamaModel.generate_stream tok m p sp oi).countP
          (fun r => r.finish_reason.isSome) ≤ 1 ∧
      (OllamaModel.generate_stream tok m p sp oi).dropLast.all
          (fun r => r.finish_reason.isNone) = true := by
    cases oi with
    | startFail e =>
        constructor
        · simp [OllamaModel.generate_stream, List.countP_cons]
        · simp [OllamaModel.generate_stream]
    | lines ls tail =>
        have hspec := ollamaLoop_break tok m (promptTokens tok sp p) ls ""
        cases hb : (ollamaLoop tok m (promptTokens tok sp p) ls "").2 with
        | true =>
            obtain ⟨pre, last, heq, hpre, hlast⟩ := hspec.2 hb
            rw [ollama_stream_broke tok m p sp ls tail hb, heq]
            constructor
            · rw [List.countP_append]
              have hzero : pre.countP (fun r => r.finish_reason.isSome) = 0 := by
                rw [List.countP_eq_zero]
                intro r hr
                rw [hpre r hr]
                simp
              rw [hzero]
              simp [List.countP_cons, hlast]
            · rw [List.dropLast_concat, List.all_eq_true]
              intro r hr
              rw [hpre r hr]
              rfl
        | false =>
            have hnone := hspec.1 hb
            have hcz : (ollamaLoop tok m (promptTokens tok sp p) ls "").1.countP
                (fun r => r.finish_reason.isSome) = 0 := by
              rw [List.countP_eq_zero]
              intro r hr
              rw [hnone r hr]
              simp
            cases tail with
            | none =>
                rw [ollama_stream_nobreak_none tok m p sp ls hb]
                constructor
                · rw [hcz]
                  exact Nat.zero_le 1
                · rw [List.all_eq_true]
                  intro r hr
                  have hr2 := (List.dropLast_sublist
                    (ollamaLoop tok m (promptTokens tok sp p) ls "").1).subset hr
                  rw [hnone r hr2]
                  rfl
            | some e =>
                rw [ollama_stream_nobreak_some tok m p e sp ls hb]
                constructor
                · rw [List.countP_append, hcz]
                  simp [List.countP_cons]
                · rw [List.dropLast_concat, List.all_eq_true]
                  intro r hr
                  rw [hnone r hr]
                  rfl
  have hgemini :
      (GeminiModel.generate_stream tok m p sp gi).countP
          (fun r => r.finish_reason.isSome) = 1 ∧
      (GeminiModel.generate_stream tok m p sp gi).dropLast.all
          (fun r => r.finish_reason.isNone) = true := by
    cases gi with
    | startFail e =>
        constructor
        · simp [GeminiModel.generate_stream, List.countP_cons]
        · simp [GeminiModel.generate_stream]
    | stream chunks tail =>
        obtain ⟨ts, hts⟩ := all_ok_eq_map chunks
          (by simpa [GeminiStreamInput.noChunkErr] using h)
        subst hts
        have hspec := geminiLoop_ok_spec tok m (promptTokens tok sp p) ts ""
        have hcz : (geminiLoop tok m (promptTokens tok sp p) (ts.map Except.ok) "").1.countP
            (fun r => r.finish_reason.isSome) = 0 := by
          rw [List.countP_eq_zero]
          intro r hr
          rw [hspec.2.2 r hr]
          simp
        have hall : ∀ r ∈ (geminiLoop tok m (promptTokens tok sp p) (ts.map Except.ok) "").1,
            r.finish_reason.isNone = true := by
          intro r hr
          rw [hspec.2.2 r hr]
          rfl
        cases tail with
        | none =>
            rw [gemini_stream_none tok m p sp (ts.map Except.ok)]
            constructor
            · rw [List.countP_append, hcz]
              simp [List.countP_cons]
            · rw [List.dropLast_concat, List.all_eq_true]
              exact hall
        | some e =>
            rw [gemini_stream_some tok m p e sp (ts.map Except.ok)]
            constructor
            · rw [List.countP_append, hcz]
              simp [List.countP_cons]
            · rw [List.dropLast_concat, List.all_eq_true]
              exact hall
  exact ⟨hollama.1, hollama.2, hgemini.1, hgemini.2⟩

/-- C2 amended, witness at concrete inputs: an Ollama stream ending in a done
line and an error-free Gemini stream. -/
theorem c2_amended_witness :
    (OllamaModel.generate_stream String.length "m" "p" none
        (.lines [.obj "hi" true 1 2 3] none)).countP
        (fun r => r.finish_reason.isSome) ≤ 1 ∧
    (OllamaModel.generate_stream String.length "m" "p" none
        (.lines [.obj "hi" true 1 2 3] none)).dropLast.all
        (fun r => r.finish_reason.isNone) = true ∧
    (GeminiModel.generate_stream String.length "m" "p" none
        (.stream [.ok "ab"] none)).countP
        (fun r => r.finish_reason.isSome) = 1 ∧
    (GeminiModel.generate_stream String.length "m" "p" none
        (.stream [.ok "ab"] none)).dropLast.all
        (fun r => r.finish_reason.isNone) = true :=
  c2_amended_terminal String.length "m" "p" none
    (.lines [.obj "hi" true 1 2 3] none) (.stream [.ok "ab"] none) rfl

/-- C3: for a successful stream on either adapter delivering backend fragments
`ts` (Ollama: content lines then a done line with trailing fragment `tl`),
concatenating the text fields of the non-terminal chunks yields exactly the
concatenation of the backend-delivered fragments, which is also the text the
non-streaming path returns when the backend delivers that same string. -/
theorem c3_stream_refines_nonstream (tok : String → Nat) (m p tl : String)
    (sp : Option String) (ts : List String) (ec ed td : Nat) :
    nonTerminalText (GeminiModel.generate_stream tok m p sp (.stream (ts.map .ok) none)) =
      concatAll ts ∧
    (GeminiModel.generate tok m p sp (.ok (concatAll ts))).text = concatAll ts ∧
    nonTerminalText (OllamaModel.generate_stream tok m p sp
        (.lines ((ts.map fun t => .obj t false 0 0 0) ++ [.obj tl true ec ed td]) none)) =
      concatAll (ts ++ [tl]) ∧
    (OllamaModel.generate tok m p sp
        (.ok { content := concatAll (ts ++ [tl]), eval_count := ec, eval_duration := ed,
               total_duration := td })).text = concatAll (ts ++ [tl]) := by
  refine ⟨?_, rfl, ?_, rfl⟩
  · rw [gemini_stream_none tok m p sp (ts.map Except.ok), nonTerminalText_append]
    rw [(geminiLoop_ok_spec tok m (promptTokens tok sp p) ts "").2.1]
    simp [nonTerminalText, String.append_empty]
  · have hconc : concatAll (ts ++ [tl]) = concatAll ts ++ tl := by
      rw [concatAll_append, concatAll, concatAll, String.append_empty]
    rw [hconc]
    have hstream : OllamaModel.generate_stream tok m p sp
        (.lines ((ts.map fun t => LineEvent.obj t false 0 0 0) ++
          [LineEvent.obj tl true ec ed td]) none) =
        (ollamaLoop tok m (promptTokens tok sp p)
          ((ts.map fun t => LineEvent.obj t false 0 0 0) ++
            [LineEvent.obj tl true ec ed td]) "").1 := by
      cases hb : (ollamaLoop tok m (promptTokens tok sp p)
          ((ts.map fun t => LineEvent.obj t false 0 0 0) ++
            [LineEvent.obj tl true ec ed td]) "").2 with
      | true => exact ollama_stream_broke tok m p sp _ none hb
      | false => exact ollama_stream_nobreak_none tok m p sp _ hb
    rw [hstream]
    exact ollamaLoop_concat tok m (promptTokens tok sp p) tl ec ed td ts ""

/-- C4: within one stream of either adapter, the completion_tokens values of
the chunks that carry a usage record form a non-decreasing sequence, each
being recomputed over the entire accumulated text so far; `hmono` is the
corresponding property of the token estimator (appending text never lowers
its count). -/
theorem c4_cumulative_monotone (tok : String → Nat) (m p : String) (sp : Option String)
    (gi : GeminiStreamInput) (oi : OllamaStreamInput)
    (hmono : ∀ a b, tok a ≤ tok (a ++ b)) :
    List.Chain' (· ≤ ·) (cts (GeminiModel.generate_stream tok m p sp gi)) ∧
    List.Chain' (· ≤ ·) (cts (OllamaModel.generate_stream tok m p sp oi)) := by
  constructor
  · cases gi with
    | startFail e => simp [GeminiModel.generate_stream, cts]
    | stream chunks tail =>
        have hch := geminiLoop_chain tok hmono m (promptTokens tok sp p) chunks ""
        have hch' : List.Chain' (· ≤ ·)
            (tok "" :: (cts (geminiLoop tok m (promptTokens tok sp p) chunks "").1 ++
              [tok (geminiLoop tok m (promptTokens tok sp p) chunks "").2])) := hch
        cases tail with
        | none =>
            rw [gemini_stream_none tok m p sp chunks, cts_append]
            have hcs : cts
                [({ text := "", model := m, finish_reason := some .stop,
                    usage := some { prompt_tokens := promptTokens tok sp p,
                                    completion_tokens :=
                                      tok (geminiLoop tok m (promptTokens tok sp p) chunks "").2,
                                    total_tokens := promptTokens tok sp p +
                                      tok (geminiLoop tok m (promptTokens tok sp p) chunks "").2,
                                    extras := [] } } : GenerationResult)] =
                [tok (geminiLoop tok m (promptTokens tok sp p) chunks "").2] := rfl
            rw [hcs]
            exact hch'.tail
        | some e =>
            rw [gemini_stream_some tok m p e sp chunks, cts_append]
            have hcs : cts
                [({ text := errorText e, model := m,
                    finish_reason := some .error, usage := none } : GenerationResult)] =
                ([] : List Nat) := rfl
            rw [hcs, List.append_nil]
            exact hch'.tail.sublist
              (List.sublist_append_left _ _)
  · cases oi with
    | startFail e => simp [OllamaModel.generate_stream, cts]
    | lines ls tail =>
        have hch := ollamaLoop_chain tok hmono m (promptTokens tok sp p) ls ""
        have hch' : List.Chain' (· ≤ ·)
            (tok "" :: cts (ollamaLoop tok m (promptTokens tok sp p) ls "").1) := hch
        cases hb : (ollamaLoop tok m (promptTokens tok sp p) ls "").2 with
        | true =>
            rw [ollama_stream_broke tok m p sp ls tail hb]
            exact hch'.tail
        | false =>
            cases tail with
            | none =>
                rw [ollama_stream_nobreak_none tok m p sp ls hb]
                exact hch'.tail
            | some e =>
                rw [ollama_stream_nobreak_some tok m p e sp ls hb, cts_append]
                have hcs : cts
                    [({ text := errorText e, model := m,
                        finish_reason := some .error, usage := none } : GenerationResult)] =
                    ([] : List Nat) := rfl
                rw [hcs, List.append_nil]
                exact hch'.tail

/-- C4 witness: the monotonicity hypothesis holds for the string-length
estimator, and concrete streams on both adapters satisfy the chain. -/
theorem c4_cumulative_monotone_witness :
    List.Chain' (· ≤ ·) (cts (GeminiModel.generate_stream String.length "m" "p" none
      (.stream [.ok "ab", .error "x", .ok "c"] none))) ∧
    List.Chain' (· ≤ ·) (cts (OllamaModel.generate_stream String.length "m" "p" none
      (.lines [.obj "hi" false 0 0 0, .obj "!" true 1 2 3] none))) :=
  c4_cumulative_monotone String.length "m" "p" none
    (.stream [.ok "ab", .error "x", .ok "c"] none)
    (.lines [.obj "hi" false 0 0 0, .obj "!" true 1 2 3] none)
    (fun a b => by rw [String.length_append]; exact Nat.le_add_right a.length b.length)

/-- C6: an Ollama stream line parsed as done=true with non-empty content
emits exactly two chunks, the incremental text chunk first and then the
terminal stop chunk with empty text, and breaks: the result does not depend
on the remaining lines `rest`. -/
theorem c6_done_line_with_text (tok : String → Nat) (m acc c : String)
    (pt ec ed td : Nat) (rest : List LineEvent) (h : c ≠ "") :
    ollamaLoop tok m pt (.obj c true ec ed td :: rest) acc =
      ([{ text := c, model := m, finish_reason := none,
          usage := some { prompt_tokens := pt, completion_tokens := tok (acc ++ c),
                          total_tokens := pt + tok (acc ++ c), extras := [] } },
        { text := "", model := m, finish_reason := some .stop,
          usage := some { prompt_tokens := pt, completion_tokens := tok (acc ++ c),
                          total_tokens := pt + tok (acc ++ c),
                          extras := [("eval_count", ec), ("eval_duration", ed),
                                     ("total_duration", td)] } }], true) := by
  simp [ollamaLoop, h]

/-- C6 witness at a concrete done line with trailing text and a pending
(unread) further line. -/
theorem c6_done_line_with_text_witness :
    ollamaLoop String.length "m" 3 [.obj "hi" true 1 2 3, .malformed] "" =
      ([{ text := "hi", model := "m", finish_reason := none,
          usage := some { prompt_tokens := 3, completion_tokens := 2,
                          total_tokens := 5, extras := [] } },
        { text := "", model := "m", finish_reason := some .stop,
          usage := some { prompt_tokens := 3, completion_tokens := 2,
                          total_tokens := 5,
                          extras := [("eval_count", 1), ("eval_duration", 2),
                                     ("total_duration", 3)] } }], true) :=
  c6_done_line_with_text String.length "m" "" "hi" 3 1 2 3 [.malformed] (by decide)

/-- C7: a line that fails JSON parsing is skipped without emitting a chunk and
without ending the stream (the loop result on a malformed line equals the
result on the remaining lines), and a later well-formed done line still
produces the normal terminal stop chunk with the correct cumulative usage. -/
theorem c7_malformed_line_skipped (tok : String → Nat) (m p t : String)
    (sp : Option String) (pt ec ed td : Nat) (rest : List LineEvent) (acc : String)
    (h : t ≠ "") :
    ollamaLoop tok m pt (.malformed :: rest) acc = ollamaLoop tok m pt rest acc ∧
    OllamaModel.generate_stream tok m p sp
        (.lines [.obj t false 0 0 0, .malformed, .obj "" true ec ed td] none) =
      [{ text := t, model := m, finish_reason := none,
         usage := some { prompt_tokens := promptTokens tok sp p,
                         completion_tokens := tok t,
                         total_tokens := promptTokens tok sp p + tok t, extras := [] } },
       { text := "", model := m, finish_reason := some .stop,
         usage := some { prompt_tokens := promptTokens tok sp p,
                         completion_tokens := tok t,
                         total_tokens := promptTokens tok sp p + tok t,
                         extras := [("eval_count", ec), ("eval_duration", ed),
                                    ("total_duration", td)] } }] := by
  constructor
  · rfl
  · simp [OllamaModel.generate_stream, ollamaLoop, h, String.empty_append]

/-- C7 witness at a concrete stream with a corrupt middle line. -/
theorem c7_malformed_line_skipped_witness :
    ollamaLoop String.length "m" 9 [LineEvent.malformed] "x" =
      ollamaLoop String.length "m" 9 [] "x" ∧
    OllamaModel.generate_stream String.length "m" "p" none
        (.lines [.obj "hi" false 0 0 0, .malformed, .obj "" true 1 2 3] none) =
      [{ text := "hi", model := "m", finish_reason := none,
         usage := some { prompt_tokens := 1, completion_tokens := 2,
                         total_tokens := 3, extras := [] } },
       { text := "", model := "m", finish_reason := some .stop,
         usage := some { prompt_tokens := 1, completion_tokens := 2,
                         total_tokens := 3,
                         extras := [("eval_count", 1), ("eval_duration", 2),
                                    ("total_duration", 3)] } }] :=
  c7_malformed_line_skipped String.length "m" "p" "hi" none 9 1 2 3 [] "x" (by decide)

/-- C8 counterexample: mid-stream chunk-processing failures yield error chunks
with an empty text field on both adapters (ollama.py 281-287, gemini.py
199-204), so a caller that reads only text does see an empty string. -/
theorem c8_counterexample :
    OllamaModel.generate_stream String.length "m" "p" none (.lines [.procErr "boom"] none) =
      [{ text := "", model := "m", finish_reason := some .error, usage := none }] ∧
    (GeminiModel.generate_stream String.length "m" "p" none
        (.stream [.error "boom"] none)).head? =
      some { text := "", model := "m", finish_reason := some .error, usage := none } :=
  ⟨rfl, rfl⟩

/-- C8 amended: every error result or chunk produced on a call-level failure
path (non-streaming exception, failure to start the stream, or a failure of
the stream iteration itself) carries the non-empty text
"Error generating content: " followed by the exception message; only the
mid-stream chunk-processing error chunks carry an empty text field (and empty
usage). -/
theorem c8_amended_error_text (tok : String → Nat) (m p e msg acc : String)
    (sp : Option String) (chunks grest : List GeminiChunkEvent)
    (pt : Nat) (rest ls : List LineEvent)
    (hb : (ollamaLoop tok m (promptTokens tok sp p) ls "").2 = false) :
    (GeminiModel.generate tok m p sp (.error e)).text = errorText e ∧
    (OllamaModel.generate tok m p sp (.error e)).text = errorText e ∧
    GeminiModel.generate_stream tok m p sp (.startFail e) =
      [{ text := errorText e, model := m, finish_reason := some .error, usage := none }] ∧
    OllamaModel.generate_stream tok m p sp (.startFail e) =
      [{ text := errorText e, model := m, finish_reason := some .error, usage := none }] ∧
    (GeminiModel.generate_stream tok m p sp (.stream chunks (some e))).getLast? =
      some { text := errorText e, model := m, finish_reason := some .error, usage := none } ∧
    (OllamaModel.generate_stream tok m p sp (.lines ls (some e))).getLast? =
      some { text := errorText e, model := m, finish_reason := some .error, usage := none } ∧
    errorText e ≠ "" ∧
    (geminiLoop tok m pt (.error msg :: grest) acc).1.head? =
      some { text := "", model := m, finish_reason := some .error, usage := none } ∧
    (ollamaLoop tok m pt (.procErr msg :: rest) acc).1 =
      [{ text := "", model := m, finish_reason := some .error, usage := none }] := by
  refine ⟨rfl, rfl, rfl, rfl, ?_, ?_, ?_, rfl, rfl⟩
  · rw [gemini_stream_some tok m p e sp chunks]
    exact List.getLast?_concat _
  · rw [ollama_stream_nobreak_some tok m p e sp ls hb]
    exact List.getLast?_concat _
  · intro hcontra
    have h2 := congrArg String.length hcontra
    have h3 : ("Error generating content: ").length = 26 := by decide
    rw [errorText, String.length_append, h3, String.length_empty] at h2
    omega

/-- C8 amended, witness at concrete inputs: the Ollama stream below processes
its single content line without breaking, so the iteration failure appends the
prefixed terminal error chunk. -/
theorem c8_amended_error_text_witness :
    (GeminiModel.generate String.length "m" "p" none (.error "boom")).text =
      errorText "boom" ∧
    (OllamaModel.generate String.length "m" "p" none (.error "boom")).text =
      errorText "boom" ∧
    GeminiModel.generate_stream String.length "m" "p" none (.startFail "boom") =
      [{ text := errorText "boom", model := "m", finish_reason := some .error,
         usage := none }] ∧
    OllamaModel.generate_stream String.length "m" "p" none (.startFail "boom") =
      [{ text := errorText "boom", model := "m", finish_reason := some .error,
         usage := none }] ∧
    (GeminiModel.generate_stream String.length "m" "p" none
        (.stream [.ok "x"] (some "boom"))).getLast? =
      some { text := errorText "boom", model := "m", finish_reason := some .error,
             usage := none } ∧
    (OllamaModel.generate_stream String.length "m" "p" none
        (.lines [.obj "hi" false 0 0 0] (some "boom"))).getLast? =
      some { text := errorText "boom", model := "m", finish_reason := some .error,
             usage := none } ∧
    errorText "boom" ≠ "" ∧
    (geminiLoop String.length "m" 2 (.error "oops" :: [.error "z"]) "a").1.head? =
      some { text := "", model := "m", finish_reason := some .error, usage := none } ∧
    (ollamaLoop String.length "m" 2 (.procErr "oops" :: [.empty]) "a").1 =
      [{ text := "", model := "m", finish_reason := some .error, usage := none }] :=
  c8_amended_error_text String.length "m" "p" "boom" "oops" "a" none
    [.ok "x"] [.error "z"] 2 [.empty] [.obj "hi" false 0 0 0] rfl

/-- C9 counterexample: with max_tokens = some 0 and stop_sequences = some []
(both set, but falsy in Python), the payload omits num_predict and stop, so
"present iff set" fails as stated. -/
theorem c9_counterexample :
    (OllamaModel.buildPayload "m" "p" none 1 (some 0) (some []) false
        none none).options.num_predict = none ∧
    (OllamaModel.buildPayload "m" "p" none 1 (some 0) (some []) false
        none none).options.stop = none ∧
    (some 0 : Option Nat).isSome = true ∧
    (some ([] : List String)).isSome = true :=
  ⟨rfl, rfl, rfl, rfl⟩

/-- C9 amended: options.num_predict is present iff max_tokens is set to a
truthy (non-zero) value and options.stop is present iff stop_sequences is set
to a non-empty list (absent fields are `none`, i.e. omitted); and when top_p
and top_k are not provided, both adapters use top_p = 0.95 and top_k = 40. -/
theorem c9_amended_payload_options (m p : String) (sp : Option String) (temp : Rat)
    (mt : Option Nat) (ss : Option (List String)) (st : Bool) :
    ((OllamaModel.buildPayload m p sp temp mt ss st none none).options.num_predict.isSome
      ↔ ∃ n, mt = some n ∧ n ≠ 0) ∧
    ((OllamaModel.buildPayload m p sp temp mt ss st none none).options.stop.isSome
      ↔ ∃ l, ss = some l ∧ l ≠ []) ∧
    (OllamaModel.buildPayload m p sp temp mt ss st none none).options.top_p = (0.95 : Rat) ∧
    (OllamaModel.buildPayload m p sp temp mt ss st none none).options.top_k = 40 ∧
    (GeminiModel.buildConfig temp mt ss none none).top_p = (0.95 : Rat) ∧
    (GeminiModel.buildConfig temp mt ss none none).top_k = 40 := by
  refine ⟨?_, ?_, rfl, rfl, rfl, rfl⟩
  · cases mt with
    | none => simp [OllamaModel.buildPayload]
    | some n =>
        by_cases h : n = 0
        · subst h
          simp [OllamaModel.buildPayload]
        · simp [OllamaModel.buildPayload, h]
  · cases ss with
    | none => simp [OllamaModel.buildPayload]
    | some l =>
        by_cases h : l = []
        · subst h
          simp [OllamaModel.buildPayload]
        · simp [OllamaModel.buildPayload, h]

/-- C10: every value emitted by either adapter -- non-streaming result,
intermediate chunk, terminal chunk or error result/chunk -- is a
GenerationResult record (exactly the four fields text, model, finish_reason,
usage, with finish_reason of type Option FinishReason, hence one of null,
"stop", "error", by construction) whose model field equals the model_name
fixed at construction. -/
theorem c10_result_shape (tok : String → Nat) (m p : String) (sp : Option String)
    (gb : Except String String) (ob : Except String OllamaResponse)
    (gi : GeminiStreamInput) (oi : OllamaStreamInput) :
    (GeminiModel.generate tok m p sp gb).model = m ∧
    (OllamaModel.generate tok m p sp ob).model = m ∧
    (GeminiModel.generate_stream tok m p sp gi).all (fun r => r.model == m) = true ∧
    (OllamaModel.generate_stream tok m p sp oi).all (fun r => r.model == m) = true := by
  refine ⟨?_, ?_, ?_, ?_⟩
  · cases gb <;> rfl
  · cases ob <;> rfl
  · rw [List.all_eq_true]
    intro r hr
    simp only [beq_iff_eq]
    cases gi with
    | startFail e =>
        simp only [GeminiModel.generate_stream, List.mem_singleton] at hr
        rw [hr]
    | stream chunks tail =>
        cases tail with
        | none =>
            rw [gemini_stream_none tok m p sp chunks] at hr
            rcases List.mem_append.mp hr with h1 | h1
            · exact geminiLoop_model tok m (promptTokens tok sp p) chunks "" r h1
            · rw [List.mem_singleton.mp h1]
        | some e =>
            rw [gemini_stream_some tok m p e sp chunks] at hr
            rcases List.mem_append.mp hr with h1 | h1
            · exact geminiLoop_model tok m (promptTokens tok sp p) chunks "" r h1
            · rw [List.mem_singleton.mp h1]
  · rw [List.all_eq_true]
    intro r hr
    simp only [beq_iff_eq]
    cases oi with
    | startFail e =>
        simp only [OllamaModel.generate_stream, List.mem_singleton] at hr
        rw [hr]
    | lines ls tail =>
        cases hb : (ollamaLoop tok m (promptTokens tok sp p) ls "").2 with
        | true =>
            rw [ollama_stream_broke tok m p sp ls tail hb] at hr
            exact ollamaLoop_model tok m (promptTokens tok sp p) ls "" r hr
        | false =>
            cases tail with
            | none =>
                rw [ollama_stream_nobreak_none tok m p sp ls hb] at hr
                exact ollamaLoop_model tok m (promptTokens tok sp p) ls "" r hr
            | some e =>
                rw [ollama_stream_nobreak_some tok m p e sp ls hb] at hr
                rcases List.mem_append.mp hr with h1 | h1
                · exact ollamaLoop_model tok m (promptTokens tok sp p) ls "" r h1
                · rw [List.mem_singleton.mp h1]

end Archon
